import Mathlib

/-!
Shallow embedding of the voice-transformation effect pipeline
(src/voice_transformation.py).  Samples are modelled as exact rationals;
the external numeric libraries (scipy filter design, librosa resampling,
numpy random draws, the transcendental click/static envelopes) enter the
model as explicit oracle parameters, while every arithmetic step written
in the repository itself is translated literally.
-/

/-- Python `int()` applied to a real value: truncation toward zero. -/
def pyInt (q : ℚ) : ℤ :=
  if q < 0 then ⌈q⌉ else ⌊q⌋

/-- numpy `np.round`: round half to even (banker's rounding). -/
def npRound (q : ℚ) : ℤ :=
  let f := ⌊q⌋
  let r := q - f
  if r < 1/2 then f
  else if 1/2 < r then f + 1
  else if f % 2 = 0 then f else f + 1

/-- numpy `np.max(np.abs(l))` over a buffer, totalised with base 0
(numpy raises on an empty array; call sites that can reach the empty
case model the failure explicitly). -/
def maxAbs (l : List ℚ) : ℚ :=
  l.foldl (fun m x => max m |x|) 0

/-- numpy `np.tile(l, k)`: k concatenated copies of l. -/
def tile (l : List ℚ) : ℕ → List ℚ
  | 0 => []
  | k + 1 => l ++ tile l k

/-- Python `int(np.ceil(n / m))` on natural counts (true float division). -/
def pyCeilDiv (n m : ℕ) : ℕ :=
  (Int.ceil ((n : ℚ) / (m : ℚ))).toNat

/-- Truncating dot product of a coefficient list against a (most recent
first) history list; missing history entries count as zero, matching an
IIR filter's zero initial state. -/
def dotTrunc : List ℚ → List ℚ → ℚ
  | [], _ => 0
  | _ :: _, [] => 0
  | c :: cs, v :: vs => c * v + dotTrunc cs vs

/-- Direct-form IIR recursion: given numerator `b`, denominator tail
`aTail`, leading denominator `a0`, the input/output histories (most
recent first) and the remaining input, produce the outputs. -/
def lfilterAux (b aTail : List ℚ) (a0 : ℚ) : List ℚ → List ℚ → List ℚ → List ℚ
  | _, _, [] => []
  | xp, yp, x :: xs =>
    let y := (dotTrunc b (x :: xp) - dotTrunc aTail yp) / a0
    y :: lfilterAux b aTail a0 (x :: xp) (y :: yp) xs

/-- Modelled from the spec: `scipy.signal.lfilter` (external to this
repository), a causal IIR filter with zero initial state. -/
def lfilter (b a : List ℚ) (x : List ℚ) : List ℚ :=
  lfilterAux b a.tail (a.headD 1) [] [] x

/-- Modelled from the spec: `scipy.signal.filtfilt` (external to this
repository): zero-phase forward-then-backward filtering; the edge
padding scipy adds is omitted, which does not affect the output length. -/
def filtfilt (b a : List ℚ) (x : List ℚ) : List ℚ :=
  (lfilter b a (lfilter b a x).reverse).reverse

/-- Error conditions of the pipeline (§7 of the spec). -/
inductive VtError where
  | unknownEffect
  | invalidParameter
deriving DecidableEq

/-- The sparse caller override map (`**style_params`): parameter name to
numeric value.  Booleans are encoded numerically (0 = False, 1 = True),
matching Python truthiness at the two use sites. -/
def Params := List (String × ℚ)

/-- Lookup of a parameter name in the override map (Python dict lookup;
a well-formed dict has no duplicate keys, so first match suffices). -/
def pLookup (ps : Params) (k : String) : Option ℚ :=
  match ps with
  | [] => none
  | (k', v) :: rest => if k = k' then some v else pLookup rest k

/-- Python `style_params.get(name, default)`. -/
def pget (ps : Params) (k : String) (d : ℚ) : ℚ :=
  (pLookup ps k).getD d

/-- Python `style_params.get(name, default)` for a parameter the code
uses as an integer (`bit_depth`); a supplied rational is truncated. -/
def pgetNat (ps : Params) (k : String) (d : ℕ) : ℕ :=
  match pLookup ps k with
  | some v => (pyInt v).toNat
  | none => d

/-- `add_noise(audio, noise_factor)`: adds per-sample noise scaled by
`noise_factor`.  `noiseArr i` is an oracle for the i-th draw of
`np.random.normal(0, audio.std(), audio.shape)`. -/
def addNoise (noiseArr : ℕ → ℚ) (buf : List ℚ) (noise_factor : ℚ) : List ℚ :=
  List.zipWith (fun i x => x + noiseArr i * noise_factor) (List.range buf.length) buf

/-- `apply_distortion(audio, amount)`: gain then hard clip to [-1, 1]
(`np.clip(audio * amount, -1, 1)`). -/
def applyDistortion (buf : List ℚ) (amount : ℚ) : List ℚ :=
  buf.map (fun x => max (-1) (min 1 (x * amount)))

/-- `apply_bit_crusher(audio, bits)`: quantize each sample by scaling by
`2^(bits-1)`, rounding to the nearest value, rescaling.  `bits` is the
code's integer bit depth (the subtraction is natural, so the model
agrees with the source for `bits ≥ 1`, the documented domain). -/
def applyBitCrusher (buf : List ℚ) (bits : ℕ) : List ℚ :=
  let max_val : ℚ := 2 ^ (bits - 1)
  buf.map (fun x => (npRound (x * max_val) : ℚ) / max_val)

/-- `add_static_effect(audio, static_level, static_freq)`: adds unit
noise scaled by `static_level` and modulated by a slow sinusoidal
envelope.  `staticArr i` is an oracle for `np.random.normal(0, 1)` and
`envArr i` for the transcendental envelope value
`0.5 * (1 + sin(2*pi*static_freq*t_i))` at the i-th time point. -/
def addStaticEffect (staticArr envArr : ℕ → ℚ) (buf : List ℚ)
    (static_level _static_freq : ℚ) : List ℚ :=
  List.zipWith (fun i x => x + staticArr i * static_level * envArr i)
    (List.range buf.length) buf

/-- `reduce_sample_rate(audio, original_sr, target_sr)`: resample down to
`target_sr`, then back up to `original_sr`.  `resample` is an oracle for
`librosa.resample` (external to this repository). -/
def reduceSampleRate (resample : List ℚ → ℚ → ℚ → List ℚ) (buf : List ℚ)
    (original_sr target_sr : ℚ) : List ℚ :=
  resample (resample buf original_sr target_sr) target_sr original_sr

/-- Modelled from the spec: `librosa.resample` (external to this
repository) fixes its output length to `ceil(n * target_sr / orig_sr)`
samples.  This is the length behaviour of the resampling primitive the
spec's `degrade` delegates to. -/
def resampleLength (n : ℕ) (orig_sr target_sr : ℚ) : ℕ :=
  (Int.ceil ((n : ℚ) * target_sr / orig_sr)).toNat

/-- Output length of `reduce_sample_rate`: the down/up round trip of the
two `librosa.resample` calls. -/
def reduceSampleRateLength (n : ℕ) (sr target_sr : ℚ) : ℕ :=
  resampleLength (resampleLength n sr target_sr) target_sr sr

/-- The compressor's gain-reduction target for an instantaneous level
above threshold: `((level - threshold) * (1 - 1/ratio)) / level`. -/
def gainReduction (threshold ratio level : ℚ) : ℚ :=
  ((level - threshold) * (1 - 1 / ratio)) / level

/-- The compressor's asymmetric attack/release envelope update for a
sample above threshold at index `i > 0`: attack toward `1 - g` when the
new reduction target `g` exceeds the previous envelope value, release
otherwise. -/
def envRecurrence (attack release g prev : ℚ) : ℚ :=
  if prev < g then min (prev + (1 - prev) / attack) (1 - g)
  else max (prev - prev / release) (1 - g)

/-- Envelope value at index 0: `1 - g` above threshold, else the
initialized gain 1 (`np.ones_like`). -/
def envStepFirst (threshold ratio : ℚ) (x : ℚ) : ℚ :=
  if threshold < |x| then 1 - gainReduction threshold ratio |x| else 1

/-- Envelope value at an index `i > 0` given the previous stored
envelope value `prev`: the asymmetric recurrence above threshold, else
the initialized gain 1 (the loop body writes nothing below threshold). -/
def envStep (threshold ratio attack release : ℚ) (prev x : ℚ) : ℚ :=
  if threshold < |x| then
    envRecurrence attack release (gainReduction threshold ratio |x|) prev
  else 1

/-- Tail of the compressor's per-sample gain-envelope loop, carrying the
previously stored envelope value. -/
def gainEnvelopeAux (threshold ratio attack release : ℚ) : ℚ → List ℚ → List ℚ
  | _, [] => []
  | prev, x :: xs =>
    let e := envStep threshold ratio attack release prev x
    e :: gainEnvelopeAux threshold ratio attack release e xs

/-- The compressor's gain envelope (the `for i in range(len(audio))`
loop of `apply_compression`), with attack/release already converted to
sample counts. -/
def gainEnvelope (threshold ratio attack release : ℚ) (buf : List ℚ) : List ℚ :=
  match buf with
  | [] => []
  | x :: xs =>
    let e := envStepFirst threshold ratio x
    e :: gainEnvelopeAux threshold ratio attack release e xs

/-- `attack = int(sr * attack_ms / 1000)` with the hardcoded
`sr = 22050` ("Default sample rate in librosa") of `apply_compression`. -/
def compressorAttackSamples (attack_ms : ℚ) : ℤ :=
  pyInt (22050 * attack_ms / 1000)

/-- `release = int(sr * release_ms / 1000)` with the hardcoded
`sr = 22050` of `apply_compression`. -/
def compressorReleaseSamples (release_ms : ℚ) : ℤ :=
  pyInt (22050 * release_ms / 1000)

/-- The gain envelope `apply_compression` actually computes, attack and
release converted at the fixed assumed rate 22050 Hz. -/
def compressionEnvelope (buf : List ℚ) (threshold ratio attack_ms release_ms : ℚ) :
    List ℚ :=
  gainEnvelope threshold ratio ((compressorAttackSamples attack_ms : ℤ) : ℚ)
    ((compressorReleaseSamples release_ms : ℤ) : ℚ) buf

/-- The gain envelope the spec's words describe: attack/release sample
counts taken at the buffer's own rate `sr`
(`attack_samples = sr * attack_ms / 1000`). -/
def specEnvelopeAtRate (sr : ℚ) (buf : List ℚ)
    (threshold ratio attack_ms release_ms : ℚ) : List ℚ :=
  gainEnvelope threshold ratio (sr * attack_ms / 1000) (sr * release_ms / 1000) buf

/-- `apply_compression(audio, threshold, ratio, attack_ms, release_ms)`:
gain envelope, multiply, then makeup gain `min(0.95/peak, 2.0)` when the
compressed peak is positive. -/
def applyCompression (buf : List ℚ) (threshold ratio attack_ms release_ms : ℚ) :
    List ℚ :=
  let env := compressionEnvelope buf threshold ratio attack_ms release_ms
  let compressed := List.zipWith (· * ·) buf env
  if maxAbs compressed > 0 then
    compressed.map (· * min (95/100 / maxAbs compressed) 2)
  else compressed

/-- `add_ptt_artifacts(audio, sr)`: a 30 ms click of band-passed,
envelope-shaped noise prepended, its reversal (quieter) appended.
`clickNoise i` is an oracle for `np.random.normal(0, 1)`, `clickEnv i`
for the transcendental decay `exp(-linspace(0, 5, m))` value at index i,
and `design low high` for the `butter(2, [low, high], btype='band')`
coefficients. -/
def addPttArtifacts (design : ℚ → ℚ → List ℚ × List ℚ) (clickNoise clickEnv : ℕ → ℚ)
    (buf : List ℚ) (sr : ℚ) : List ℚ :=
  let num_click_samples := (pyInt (3/100 * sr)).toNat
  let rawClick := (List.range num_click_samples).map clickNoise
  let nyquist := sr / 2
  let coeffs := design (800 / nyquist) (3000 / nyquist)
  let filtered := filtfilt coeffs.1 coeffs.2 rawClick
  let click := List.zipWith (fun c e => c * e * (2/10)) filtered
    ((List.range num_click_samples).map clickEnv)
  let end_click := click.reverse.map (· * (15/100))
  click ++ buf ++ end_click

/-- Number of click samples: `int(0.03 * sr)` (Python truncation). -/
def numClickSamples (sr : ℚ) : ℕ :=
  (pyInt (3/100 * sr)).toNat

/-- `mix_with_background(audio, background_audio, background_level)`:
tile-then-trim or trim the background to the primary length, mix, and
rescale by `0.95/peak` when the mixed peak exceeds 1.  Returns `none`
where the Python raises: `np.ceil(len(audio)/len(background))` divides
by zero for an empty background shorter than the primary, and
`np.max` rejects an empty mixed array. -/
def mixWithBackground (buf background : List ℚ) (background_level : ℚ) :
    Option (List ℚ) :=
  if background.length < buf.length ∧ background.length = 0 then none
  else
    let bg :=
      if background.length < buf.length then
        (tile background (pyCeilDiv buf.length background.length)).take buf.length
      else background.take buf.length
    let mixed := List.zipWith (fun x b => x + b * background_level) buf bg
    if mixed.length = 0 then none
    else if maxAbs mixed > 1 then
      some (mixed.map (fun x => x / maxAbs mixed * (95/100)))
    else some mixed

/-- `apply_bandpass_filter(audio, sr, low_cutoff, high_cutoff)`: cutoffs
normalized to the Nyquist frequency `0.5 * sr`, then 4th-order
Butterworth design and zero-phase application.  `design low high` is an
oracle for the `butter(4, [low, high], btype='band')` coefficients;
the guard `0 < low < high < 1` on the normalized cutoffs is modelled
from the spec (scipy rejects critical frequencies outside (0, 1), the
spec's InvalidParameter condition). -/
def applyBandpassFilter (design : ℚ → ℚ → List ℚ × List ℚ) (buf : List ℚ)
    (sr low_cutoff high_cutoff : ℚ) : Except VtError (List ℚ) :=
  let nyquist := 1/2 * sr
  let low := low_cutoff / nyquist
  let high := high_cutoff / nyquist
  if 0 < low ∧ low < high ∧ high < 1 then
    let coeffs := design low high
    Except.ok (filtfilt coeffs.1 coeffs.2 buf)
  else Except.error VtError.invalidParameter

/-- `apply_highpass_filter(audio, sr, cutoff)`: normalized cutoff, then
4th-order Butterworth high-pass and zero-phase application; the guard
`0 < cutoff/nyquist < 1` is modelled from the spec as for the band-pass. -/
def applyHighpassFilter (design : ℚ → List ℚ × List ℚ) (buf : List ℚ)
    (sr cutoff : ℚ) : Except VtError (List ℚ) :=
  let nyquist := 1/2 * sr
  let normalized_cutoff := cutoff / nyquist
  if 0 < normalized_cutoff ∧ normalized_cutoff < 1 then
    let coeffs := design normalized_cutoff
    Except.ok (filtfilt coeffs.1 coeffs.2 buf)
  else Except.error VtError.invalidParameter

/-- `apply_lowpass_filter(audio, sr, cutoff)`: as the high-pass with a
4th-order Butterworth low-pass design oracle. -/
def applyLowpassFilter (design : ℚ → List ℚ × List ℚ) (buf : List ℚ)
    (sr cutoff : ℚ) : Except VtError (List ℚ) :=
  let nyquist := 1/2 * sr
  let normalized_cutoff := cutoff / nyquist
  if 0 < normalized_cutoff ∧ normalized_cutoff < 1 then
    let coeffs := design normalized_cutoff
    Except.ok (filtfilt coeffs.1 coeffs.2 buf)
  else Except.error VtError.invalidParameter

/-- The radio preset's resolved parameters (`simulate_old_radio` lines
160-166).  `use_dust_effect` encodes the Python boolean numerically
(1 = True, the default; Python truthiness `≠ 0`). -/
structure RadioParams where
  low_cutoff : ℚ
  high_cutoff : ℚ
  distortion_amount : ℚ
  noise_factor : ℚ
  target_sample_rate : ℚ
  dust_level : ℚ
  use_dust_effect : ℚ
deriving DecidableEq

/-- Parameter resolution of `simulate_old_radio`: each
`style_params.get(name, default)` call in source order. -/
def resolveRadioParams (ps : Params) : RadioParams where
  low_cutoff := pget ps "low_cutoff" 300
  high_cutoff := pget ps "high_cutoff" 3000
  distortion_amount := pget ps "distortion_amount" (12/10)
  noise_factor := pget ps "noise_factor" (8/1000)
  target_sample_rate := pget ps "sample_rate" 8000
  dust_level := pget ps "dust_level" (2/10)
  use_dust_effect := pget ps "use_dust_effect" 1

/-- The walkie preset's resolved parameters (`simulate_walkie_talkie`
lines 206-214). -/
structure WalkieParams where
  low_cutoff : ℚ
  high_cutoff : ℚ
  distortion_amount : ℚ
  noise_factor : ℚ
  static_level : ℚ
  compression_ratio : ℚ
  attack_ms : ℚ
  release_ms : ℚ
  bit_depth : ℕ
deriving DecidableEq

/-- Parameter resolution of `simulate_walkie_talkie`: each
`style_params.get(name, default)` call in source order. -/
def resolveWalkieParams (ps : Params) : WalkieParams where
  low_cutoff := pget ps "low_cutoff" 300
  high_cutoff := pget ps "high_cutoff" 4000
  distortion_amount := pget ps "distortion_amount" (21/20)
  noise_factor := pget ps "noise_factor" (1/100)
  static_level := pget ps "static_level" (3/100)
  compression_ratio := pget ps "compression_ratio" 8
  attack_ms := pget ps "attack_ms" 5
  release_ms := pget ps "release_ms" 150
  bit_depth := pgetNat ps "bit_depth" 8

/-- The external collaborators of one pipeline invocation: scipy filter
designs, the random draws, the transcendental envelopes, librosa
resampling, and the optional on-disk dust texture (none = file absent). -/
structure Oracles where
  bandDesign : ℚ → ℚ → List ℚ × List ℚ
  highDesign : ℚ → List ℚ × List ℚ
  lowDesign : ℚ → List ℚ × List ℚ
  pttDesign : ℚ → ℚ → List ℚ × List ℚ
  pttNoise : ℕ → ℚ
  pttEnv : ℕ → ℚ
  noiseArr : ℕ → ℚ
  staticArr : ℕ → ℚ
  staticEnv : ℕ → ℚ
  resample : List ℚ → ℚ → ℚ → List ℚ
  dust : Option (List ℚ)

/-- `simulate_old_radio(audio, sr, **style_params)`: bandpass, light
distortion, hiss, optional rate degradation (only when the target rate
is truthy and below `sr`), optional dust mixing.  The dust block is
wrapped in `try/except`, so a failing mix (or a missing file) leaves the
buffer unchanged. -/
def simulateOldRadioEffect (o : Oracles) (buf : List ℚ) (sr : ℚ) (ps : Params) :
    Except VtError (List ℚ) :=
  let p := resolveRadioParams ps
  (applyBandpassFilter o.bandDesign buf sr p.low_cutoff p.high_cutoff).bind fun buf1 =>
  let buf2 := applyDistortion buf1 p.distortion_amount
  let buf3 := addNoise o.noiseArr buf2 p.noise_factor
  let buf4 :=
    if p.target_sample_rate ≠ 0 ∧ p.target_sample_rate < sr then
      reduceSampleRate o.resample buf3 sr p.target_sample_rate
    else buf3
  let buf5 :=
    if p.use_dust_effect ≠ 0 then
      match o.dust with
      | some d => (mixWithBackground buf4 d p.dust_level).getD buf4
      | none => buf4
    else buf4
  Except.ok buf5

/-- `simulate_walkie_talkie(audio, sr, **style_params)`: high-pass,
low-pass, compression (threshold fixed at 0.3), distortion, bit
crushing, push-to-talk clicks, noise, static (freq fixed at 0.3), in
exactly this source order. -/
def simulateWalkieTalkie (o : Oracles) (buf : List ℚ) (sr : ℚ) (ps : Params) :
    Except VtError (List ℚ) :=
  let p := resolveWalkieParams ps
  (applyHighpassFilter o.highDesign buf sr p.low_cutoff).bind fun buf1 =>
  (applyLowpassFilter o.lowDesign buf1 sr p.high_cutoff).bind fun buf2 =>
  let buf3 := applyCompression buf2 (3/10) p.compression_ratio p.attack_ms p.release_ms
  let buf4 := applyDistortion buf3 p.distortion_amount
  let buf5 := applyBitCrusher buf4 p.bit_depth
  let buf6 := addPttArtifacts o.pttDesign o.pttNoise o.pttEnv buf5 sr
  let buf7 := addNoise o.noiseArr buf6 p.noise_factor
  let buf8 := addStaticEffect o.staticArr o.staticEnv buf7 p.static_level (3/10)
  Except.ok buf8

/-- `process_audio` after decoding: dispatch on the effect name, raising
`ValueError` (the UnknownEffect condition) for any other name before any
stage runs. -/
def processAudioEffect (o : Oracles) (buf : List ℚ) (sr : ℚ) (effect_type : String)
    (ps : Params) : Except VtError (List ℚ) :=
  if effect_type = "radio" then simulateOldRadioEffect o buf sr ps
  else if effect_type = "walkie" then simulateWalkieTalkie o buf sr ps
  else Except.error VtError.unknownEffect

/-- A degenerate oracle bundle (identity designs, zero noise) used to
evaluate closed instances. -/
def trivialOracles : Oracles where
  bandDesign := fun _ _ => ([1], [1])
  highDesign := fun _ => ([1], [1])
  lowDesign := fun _ => ([1], [1])
  pttDesign := fun _ _ => ([1], [1])
  pttNoise := fun _ => 0
  pttEnv := fun _ => 0
  noiseArr := fun _ => 0
  staticArr := fun _ => 0
  staticEnv := fun _ => 0
  resample := fun l _ _ => l
  dust := none

/-! Helper lemmas. -/

theorem tile_length (l : List ℚ) (k : ℕ) : (tile l k).length = k * l.length := by
  induction k with
  | zero => simp [tile]
  | succ n ih => simp [tile, ih, Nat.succ_mul, Nat.add_comm]

theorem pyCeilDiv_mul_ge (n m : ℕ) (hm : 0 < m) : n ≤ pyCeilDiv n m * m := by
  have hm0 : (0 : ℚ) < (m : ℚ) := by exact_mod_cast hm
  have hq : ((n : ℚ) / m) ≤ ((Int.ceil ((n : ℚ) / m) : ℤ) : ℚ) := Int.le_ceil _
  have hnn : (0 : ℤ) ≤ Int.ceil ((n : ℚ) / m) := by
    apply Int.ceil_nonneg
    positivity
  have hcast : ((pyCeilDiv n m : ℕ) : ℚ) = ((Int.ceil ((n : ℚ) / m) : ℤ) : ℚ) := by
    unfold pyCeilDiv
    exact_mod_cast congrArg (fun z : ℤ => (z : ℚ)) (Int.toNat_of_nonneg hnn)
  have hmul : (n : ℚ) ≤ ((pyCeilDiv n m : ℕ) : ℚ) * m := by
    rw [hcast]
    calc (n : ℚ) = (n : ℚ) / m * m := by field_simp
    _ ≤ ((Int.ceil ((n : ℚ) / m) : ℤ) : ℚ) * m :=
        mul_le_mul_of_nonneg_right hq (le_of_lt hm0)
  exact_mod_cast hmul

theorem foldl_maxAbs_le (l : List ℚ) (c : ℚ) :
    ∀ init : ℚ, init ≤ c → (∀ x ∈ l, |x| ≤ c) →
      l.foldl (fun m x => max m |x|) init ≤ c := by
  induction l with
  | nil => intro init h _; simpa using h
  | cons a l ih =>
    intro init h hall
    simp only [List.foldl_cons]
    exact ih _ (max_le h (hall a (by simp))) (fun x hx => hall x (by simp [hx]))

theorem le_foldl_maxAbs (l : List ℚ) :
    ∀ init : ℚ, init ≤ l.foldl (fun m x => max m |x|) init := by
  induction l with
  | nil => intro init; simp
  | cons a l ih =>
    intro init
    simp only [List.foldl_cons]
    exact le_trans (le_max_left _ _) (ih (max init |a|))

theorem mem_le_foldl_maxAbs (l : List ℚ) :
    ∀ init x, x ∈ l → |x| ≤ l.foldl (fun m x => max m |x|) init := by
  induction l with
  | nil => intro _ x hx; simp at hx
  | cons a l ih =>
    intro init x hx
    rcases List.mem_cons.mp hx with h | h
    · subst h
      simp only [List.foldl_cons]
      exact le_trans (le_max_right init |x|) (le_foldl_maxAbs l _)
    · simp only [List.foldl_cons]
      exact ih _ x h

theorem mem_le_maxAbs (l : List ℚ) (x : ℚ) (hx : x ∈ l) : |x| ≤ maxAbs l :=
  mem_le_foldl_maxAbs l 0 x hx

theorem maxAbs_le_of_forall (l : List ℚ) (c : ℚ) (hc : 0 ≤ c)
    (h : ∀ x ∈ l, |x| ≤ c) : maxAbs l ≤ c :=
  foldl_maxAbs_le l c 0 hc h

theorem lfilterAux_length (b aTail : List ℚ) (a0 : ℚ) (xs : List ℚ) :
    ∀ xp yp, (lfilterAux b aTail a0 xp yp xs).length = xs.length := by
  induction xs with
  | nil => intro xp yp; rfl
  | cons x xs ih => intro xp yp; simp [lfilterAux, ih]

theorem lfilter_length (b a : List ℚ) (x : List ℚ) :
    (lfilter b a x).length = x.length := by
  unfold lfilter
  exact lfilterAux_length _ _ _ _ _ _

theorem filtfilt_length (b a : List ℚ) (x : List ℚ) :
    (filtfilt b a x).length = x.length := by
  unfold filtfilt
  simp [lfilter_length]

theorem gainEnvelopeAux_length (threshold ratio attack release : ℚ) (xs : List ℚ) :
    ∀ prev, (gainEnvelopeAux threshold ratio attack release prev xs).length = xs.length := by
  induction xs with
  | nil => intro prev; rfl
  | cons x xs ih => intro prev; simp [gainEnvelopeAux, ih]

theorem gainEnvelope_length (threshold ratio attack release : ℚ) (l : List ℚ) :
    (gainEnvelope threshold ratio attack release l).length = l.length := by
  cases l with
  | nil => rfl
  | cons x xs => simp [gainEnvelope, gainEnvelopeAux_length]

theorem gainEnvelopeAux_getD_succ (threshold ratio attack release : ℚ) (xs : List ℚ) :
    ∀ prev (i : ℕ), i + 1 < xs.length →
      (gainEnvelopeAux threshold ratio attack release prev xs).getD (i + 1) 0 =
        envStep threshold ratio attack release
          ((gainEnvelopeAux threshold ratio attack release prev xs).getD i 0)
          (xs.getD (i + 1) 0) := by
  induction xs with
  | nil => intro prev i h; simp at h
  | cons x xs ih =>
    intro prev i h
    cases xs with
    | nil => simp at h
    | cons y ys =>
      cases i with
      | zero =>
        simp [gainEnvelopeAux, List.getD_cons_succ, List.getD_cons_zero]
      | succ j =>
        have h' : j + 1 < (y :: ys).length := by
          simp only [List.length_cons] at h ⊢
          omega
        simp only [gainEnvelopeAux, List.getD_cons_succ]
        exact ih _ j h'

theorem gainEnvelope_getD_succ (threshold ratio attack release : ℚ) (l : List ℚ)
    (i : ℕ) (h : i + 1 < l.length) :
    (gainEnvelope threshold ratio attack release l).getD (i + 1) 0 =
      envStep threshold ratio attack release
        ((gainEnvelope threshold ratio attack release l).getD i 0)
        (l.getD (i + 1) 0) := by
  cases l with
  | nil => simp at h
  | cons x xs =>
    cases i with
    | zero =>
      cases xs with
      | nil => simp at h
      | cons y ys =>
        simp [gainEnvelope, gainEnvelopeAux, List.getD_cons_succ, List.getD_cons_zero]
    | succ j =>
      have h' : j + 1 < xs.length := by
        simp only [List.length_cons] at h
        omega
      simp only [gainEnvelope, List.getD_cons_succ]
      exact gainEnvelopeAux_getD_succ threshold ratio attack release xs _ j h'

theorem compressorAttackSamples_five : compressorAttackSamples 5 = 110 := by
  unfold compressorAttackSamples pyInt
  rw [if_neg (by norm_num)]
  norm_num

theorem compressorReleaseSamples_150 : compressorReleaseSamples 150 = 3307 := by
  unfold compressorReleaseSamples pyInt
  rw [if_neg (by norm_num)]
  norm_num

/-- C1 (amended): for every sample with level above threshold the gain
envelope of `apply_compression` follows the asymmetric attack/release
recurrence on the previously stored envelope value, with `e[0] = 1 - g`,
where attack and release are converted to sample counts at the fixed
assumed rate 22050 Hz hardcoded in the function — not at the buffer's
own sample rate, which the function never receives. -/
theorem compressor_envelope_recursion_fixed_rate (buf : List ℚ)
    (threshold ratio attack_ms release_ms : ℚ) :
    (0 < buf.length → threshold < |buf.getD 0 0| →
      (compressionEnvelope buf threshold ratio attack_ms release_ms).getD 0 0 =
        1 - gainReduction threshold ratio |buf.getD 0 0|) ∧
    (∀ i : ℕ, i + 1 < buf.length → threshold < |buf.getD (i + 1) 0| →
      (compressionEnvelope buf threshold ratio attack_ms release_ms).getD (i + 1) 0 =
        envRecurrence ((compressorAttackSamples attack_ms : ℤ) : ℚ)
          ((compressorReleaseSamples release_ms : ℤ) : ℚ)
          (gainReduction threshold ratio |buf.getD (i + 1) 0|)
          ((compressionEnvelope buf threshold ratio attack_ms release_ms).getD i 0)) := by
  constructor
  · intro h0 hth
    cases buf with
    | nil => simp at h0
    | cons x xs =>
      simp only [List.getD_cons_zero] at hth ⊢
      simp only [compressionEnvelope, gainEnvelope, List.getD_cons_zero]
      unfold envStepFirst
      rw [if_pos hth]
  · intro i h hth
    unfold compressionEnvelope
    rw [gainEnvelope_getD_succ _ _ _ _ _ _ h]
    unfold envStep
    rw [if_pos hth]

/-- Witness: C1's amended theorem evaluated on the buffer [1/2, 9/10]
at index 1. -/
theorem compressor_envelope_recursion_fixed_rate_witness :
    (compressionEnvelope [1/2, 9/10] (3/10) 8 5 150).getD 1 0 =
      envRecurrence ((compressorAttackSamples 5 : ℤ) : ℚ)
        ((compressorReleaseSamples 150 : ℤ) : ℚ)
        (gainReduction (3/10) 8 |([1/2, 9/10] : List ℚ).getD 1 0|)
        ((compressionEnvelope [1/2, 9/10] (3/10) 8 5 150).getD 0 0) :=
  (compressor_envelope_recursion_fixed_rate [1/2, 9/10] (3/10) 8 5 150).2 0
    (by simp)
    (by simp only [List.getD_cons_succ, List.getD_cons_zero]; norm_num [abs_of_pos])

/-- C1 counterexample: the claim converts attack/release at the buffer's
rate sr.  For a buffer at sr = 44100 Hz the envelope the code computes
(22050-based counts: attack 110, release 3307) differs from the envelope
the claim describes (sr-based counts) already on the two-sample buffer
[1/2, 9/10]. -/
theorem compressor_rate_counterexample :
    compressionEnvelope [1/2, 9/10] (3/10) 8 5 150 ≠
      specEnvelopeAtRate 44100 [1/2, 9/10] (3/10) 8 5 150 := by
  unfold compressionEnvelope specEnvelopeAtRate
  rw [compressorAttackSamples_five, compressorReleaseSamples_150]
  norm_num [gainEnvelope, gainEnvelopeAux, envStepFirst, envStep, envRecurrence,
    gainReduction, abs_of_pos]

/-- C10: a sample whose instantaneous level is at or below threshold
keeps the initialized gain 1 regardless of the previous envelope value:
the loop body of `apply_compression` writes the envelope only above
threshold, so the applied gain snaps back to 1 at such samples. -/
theorem below_threshold_gain_is_one (buf : List ℚ)
    (threshold ratio attack_ms release_ms : ℚ) (i : ℕ) (h : i < buf.length)
    (hle : |buf.getD i 0| ≤ threshold) :
    (compressionEnvelope buf threshold ratio attack_ms release_ms).getD i 0 = 1 := by
  unfold compressionEnvelope
  cases i with
  | zero =>
    cases buf with
    | nil => simp at h
    | cons x xs =>
      simp only [List.getD_cons_zero] at hle
      simp only [gainEnvelope, List.getD_cons_zero]
      unfold envStepFirst
      rw [if_neg (not_lt.mpr hle)]
  | succ j =>
    rw [gainEnvelope_getD_succ _ _ _ _ _ _ h]
    unfold envStep
    rw [if_neg (not_lt.mpr hle)]

/-- Witness: C10's theorem on [1/2, 1/10] at index 1 (level 1/10 is
below the 3/10 threshold, the previous envelope value is not 1). -/
theorem below_threshold_gain_is_one_witness :
    (compressionEnvelope [1/2, 1/10] (3/10) 8 5 150).getD 1 0 = 1 :=
  below_threshold_gain_is_one [1/2, 1/10] (3/10) 8 5 150 1 (by simp)
    (by simp only [List.getD_cons_succ, List.getD_cons_zero]; norm_num [abs_of_pos])

/-- C2: the walkie preset is exactly the composition high-pass, then
low-pass, then compression, then distortion, then bit crushing, then
push-to-talk clicks, then additive noise, then static, in that fixed
order, with the preset's resolved parameters (the two filter stages
threaded through the error monad, the rest pure). -/
theorem walkie_is_ordered_composition (o : Oracles) (buf : List ℚ) (sr : ℚ)
    (ps : Params) :
    simulateWalkieTalkie o buf sr ps =
      (applyHighpassFilter o.highDesign buf sr (resolveWalkieParams ps).low_cutoff).bind
        (fun buf1 =>
          (applyLowpassFilter o.lowDesign buf1 sr (resolveWalkieParams ps).high_cutoff).bind
            (fun buf2 =>
              Except.ok
                (addStaticEffect o.staticArr o.staticEnv
                  (addNoise o.noiseArr
                    (addPttArtifacts o.pttDesign o.pttNoise o.pttEnv
                      (applyBitCrusher
                        (applyDistortion
                          (applyCompression buf2 (3/10)
                            (resolveWalkieParams ps).compression_ratio
                            (resolveWalkieParams ps).attack_ms
                            (resolveWalkieParams ps).release_ms)
                          (resolveWalkieParams ps).distortion_amount)
                        (resolveWalkieParams ps).bit_depth)
                      sr)
                    (resolveWalkieParams ps).noise_factor)
                  (resolveWalkieParams ps).static_level (3/10)))) := rfl

theorem resampleLength_100_down : resampleLength 100 22050 8000 = 37 := by
  unfold resampleLength
  rw [show Int.ceil (((100 : ℕ) : ℚ) * 8000 / 22050) = 37 by norm_num [Int.ceil_eq_iff]]
  rfl

/-- C3 (amended): the downsample/upsample round trip of `degrade`
returns a buffer at the original rate whose length is
`ceil(ceil(n * target_sr / sr) * sr / target_sr)`; this is always at
least n, but it is not always exactly n. -/
theorem degrade_length_lower_bound (n : ℕ) (sr target_sr : ℚ)
    (hs : 0 < sr) (ht : 0 < target_sr) :
    n ≤ reduceSampleRateLength n sr target_sr := by
  unfold reduceSampleRateLength resampleLength
  have hq0 : (0 : ℚ) ≤ (n : ℚ) * target_sr / sr := by positivity
  have hceil0 : (0 : ℤ) ≤ Int.ceil ((n : ℚ) * target_sr / sr) := Int.ceil_nonneg hq0
  have hmcast : (((Int.ceil ((n : ℚ) * target_sr / sr)).toNat : ℕ) : ℚ) =
      ((Int.ceil ((n : ℚ) * target_sr / sr) : ℤ) : ℚ) := by
    exact_mod_cast congrArg (fun z : ℤ => (z : ℚ)) (Int.toNat_of_nonneg hceil0)
  have h1 : (n : ℚ) * target_sr / sr ≤
      (((Int.ceil ((n : ℚ) * target_sr / sr)).toNat : ℕ) : ℚ) := by
    rw [hmcast]
    exact Int.le_ceil _
  have h2 : (n : ℚ) ≤
      (((Int.ceil ((n : ℚ) * target_sr / sr)).toNat : ℕ) : ℚ) * sr / target_sr := by
    rw [le_div_iff₀ ht]
    calc (n : ℚ) * target_sr = ((n : ℚ) * target_sr / sr) * sr := by field_simp
    _ ≤ (((Int.ceil ((n : ℚ) * target_sr / sr)).toNat : ℕ) : ℚ) * sr :=
        mul_le_mul_of_nonneg_right h1 hs.le
  have h3 : (n : ℤ) ≤
      Int.ceil ((((Int.ceil ((n : ℚ) * target_sr / sr)).toNat : ℕ) : ℚ) * sr / target_sr) := by
    have := le_trans h2 (Int.le_ceil _)
    exact_mod_cast this
  exact (Int.le_toNat (le_trans (by exact_mod_cast Nat.zero_le n) h3)).mpr h3

/-- Witness: C3's amended theorem at n = 100, sr = 22050,
target_sr = 8000. -/
theorem degrade_length_lower_bound_witness :
    100 ≤ reduceSampleRateLength 100 22050 8000 :=
  degrade_length_lower_bound 100 22050 8000 (by norm_num) (by norm_num)

/-- C3 counterexample: the claim says `degrade` preserves the buffer
length exactly, but a 100-sample buffer at 22050 Hz degraded to 8000 Hz
comes back with ceil(ceil(100*8000/22050)*22050/8000) = 102 samples. -/
theorem degrade_length_counterexample :
    reduceSampleRateLength 100 22050 8000 ≠ 100 := by
  unfold reduceSampleRateLength
  rw [resampleLength_100_down]
  unfold resampleLength
  rw [show Int.ceil (((37 : ℕ) : ℚ) * 22050 / 8000) = 102 by norm_num [Int.ceil_eq_iff]]
  decide

theorem addPttArtifacts_length (design : ℚ → ℚ → List ℚ × List ℚ)
    (clickNoise clickEnv : ℕ → ℚ) (buf : List ℚ) (sr : ℚ) :
    (addPttArtifacts design clickNoise clickEnv buf sr).length =
      buf.length + 2 * numClickSamples sr := by
  unfold addPttArtifacts numClickSamples
  simp only [List.length_append, List.length_zipWith, List.length_map,
    List.length_reverse, List.length_range, filtfilt_length, Nat.min_self]
  omega

/-- C4 (amended): the TransientStage output has length exactly
`n + 2 * int(0.03 * sr)` — the 30 ms click count is truncated
(`int(click_duration * sr)`), not rounded: a click burst is prepended
and a time-reversed copy appended. -/
theorem ptt_click_length (design : ℚ → ℚ → List ℚ × List ℚ)
    (clickNoise clickEnv : ℕ → ℚ) (buf : List ℚ) (sr : ℚ) :
    (addPttArtifacts design clickNoise clickEnv buf sr).length =
      buf.length + 2 * numClickSamples sr :=
  addPttArtifacts_length design clickNoise clickEnv buf sr

theorem numClickSamples_11025 : numClickSamples 11025 = 330 := by
  unfold numClickSamples pyInt
  rw [if_neg (by norm_num)]
  rw [show (⌊(3 : ℚ)/100 * 11025⌋ : ℤ) = 330 by norm_num]
  rfl

/-- C4 counterexample: the claim's count is `round(0.03 * sr)`.  At
sr = 11025 Hz (0.03 * sr = 330.75) the code truncates to 330 click
samples per side, while rounding gives 331: on a one-sample buffer the
output has 1 + 2*330 = 661 samples, not 1 + 2*331 = 663. -/
theorem ptt_length_round_counterexample :
    (addPttArtifacts (fun _ _ => ([1], [1])) (fun _ => 0) (fun _ => 0)
        [0] 11025).length ≠
      1 + 2 * (round ((3 : ℚ)/100 * 11025)).toNat := by
  rw [addPttArtifacts_length, numClickSamples_11025]
  rw [show round ((3 : ℚ)/100 * 11025) = 331 by norm_num [round_eq]]
  decide

theorem npRound_intCast (n : ℤ) : npRound ((n : ℤ) : ℚ) = n := by
  unfold npRound
  rw [Int.floor_intCast]
  norm_num

/-- C5: the bit crusher is idempotent — re-quantizing an already
quantized buffer at the same bit depth changes nothing, since each
quantized sample times the scale is already an integer. -/
theorem bitcrusher_idempotent (buf : List ℚ) (bits : ℕ) (_hb : 1 ≤ bits) :
    applyBitCrusher (applyBitCrusher buf bits) bits = applyBitCrusher buf bits := by
  unfold applyBitCrusher
  rw [List.map_map]
  apply List.map_congr_left
  intro x _
  have hM : ((2 : ℚ) ^ (bits - 1)) ≠ 0 := by positivity
  simp only [Function.comp_apply]
  rw [div_mul_cancel₀ _ hM, npRound_intCast]

/-- Witness: C5's theorem on [1/3, -7/10] at bit depth 8. -/
theorem bitcrusher_idempotent_witness :
    applyBitCrusher (applyBitCrusher [1/3, -7/10] 8) 8 =
      applyBitCrusher [1/3, -7/10] 8 :=
  bitcrusher_idempotent [1/3, -7/10] 8 (by norm_num)

theorem adjusted_background_length (buf background : List ℚ)
    (hlb : 0 < background.length) :
    (if background.length < buf.length then
        (tile background (pyCeilDiv buf.length background.length)).take buf.length
      else background.take buf.length).length = buf.length := by
  by_cases hc : background.length < buf.length
  · rw [if_pos hc, List.length_take, tile_length]
    exact Nat.min_eq_left (pyCeilDiv_mul_ge buf.length background.length hlb)
  · rw [if_neg hc, List.length_take]
    omega

/-- C6 (amended): for every non-empty primary buffer and every non-empty
background buffer, `mix_with_background` succeeds with a buffer of
exactly the primary length (background tiled-then-truncated if shorter,
truncated if longer) whose peak absolute value never exceeds 1 (rescaled
by 0.95/peak whenever the mixed peak exceeds 1). -/
theorem mix_background_length_and_peak (buf background : List ℚ) (level : ℚ)
    (hbuf : buf ≠ []) (hbg : background ≠ []) :
    ∃ out, mixWithBackground buf background level = some out ∧
      out.length = buf.length ∧ maxAbs out ≤ 1 := by
  have hn : 0 < buf.length := List.length_pos.mpr hbuf
  have hlb : 0 < background.length := List.length_pos.mpr hbg
  simp only [mixWithBackground]
  rw [if_neg (fun h => Nat.pos_iff_ne_zero.mp hlb h.2)]
  set bgAdj := (if background.length < buf.length then
      (tile background (pyCeilDiv buf.length background.length)).take buf.length
    else background.take buf.length) with hbga
  set mixed := List.zipWith (fun x b => x + b * level) buf bgAdj with hmx
  have hmlen : mixed.length = buf.length := by
    rw [hmx, List.length_zipWith, hbga, adjusted_background_length buf background hlb]
    omega
  rw [if_neg (by omega)]
  by_cases hpk : maxAbs mixed > 1
  · rw [if_pos hpk]
    refine ⟨_, rfl, by simpa using hmlen, ?_⟩
    apply maxAbs_le_of_forall _ _ zero_le_one
    intro y hy
    obtain ⟨x, hxm, hxy⟩ := List.mem_map.mp hy
    have hxb : |x| ≤ maxAbs mixed := mem_le_maxAbs mixed x hxm
    have hp0 : (0 : ℚ) < maxAbs mixed := lt_trans one_pos hpk
    rw [← hxy, abs_mul, abs_div, abs_of_pos hp0]
    calc |x| / maxAbs mixed * |(95 : ℚ)/100| ≤ 1 * |(95 : ℚ)/100| := by
          apply mul_le_mul_of_nonneg_right _ (abs_nonneg _)
          exact (div_le_one hp0).mpr hxb
    _ ≤ 1 := by rw [one_mul]; rw [abs_of_pos (by norm_num)]; norm_num
  · rw [if_neg hpk]
    exact ⟨mixed, rfl, hmlen, not_lt.mp hpk⟩

/-- Witness: C6's amended theorem on primary [1/2, 3/4] against the
longer background [1, 1, 1] at level 1/2 (the mixed peak 5/4 exceeds 1,
so the rescaling branch is exercised). -/
theorem mix_background_length_and_peak_witness :
    ∃ out, mixWithBackground [1/2, 3/4] [1, 1, 1] (1/2) = some out ∧
      out.length = ([1/2, 3/4] : List ℚ).length ∧ maxAbs out ≤ 1 :=
  mix_background_length_and_peak [1/2, 3/4] [1, 1, 1] (1/2) (by simp) (by simp)

/-- C6 counterexample: the claim covers every primary buffer, but on an
empty primary buffer the code raises (`np.max` of the empty mixed array
has no identity), so no buffer of length 0 is returned. -/
theorem mix_background_empty_counterexample :
    mixWithBackground [] [1] (2/10) = none := by
  simp [mixWithBackground]

/-- C7: any effect name other than "radio" and "walkie" is rejected with
the UnknownEffect condition (`ValueError`) before any stage executes,
and no output buffer is produced. -/
theorem unknown_effect_rejected (o : Oracles) (buf : List ℚ) (sr : ℚ) (ps : Params)
    (effect_type : String) (h1 : effect_type ≠ "radio") (h2 : effect_type ≠ "walkie") :
    processAudioEffect o buf sr effect_type ps = Except.error VtError.unknownEffect := by
  unfold processAudioEffect
  rw [if_neg h1, if_neg h2]

/-- Witness: C7's theorem for the effect name "fm". -/
theorem unknown_effect_rejected_witness :
    processAudioEffect trivialOracles [1] 22050 "fm" ([] : Params) =
      Except.error VtError.unknownEffect :=
  unknown_effect_rejected trivialOracles [1] 22050 ([] : Params) "fm"
    (by simp) (by simp)

/-- C8: the band-pass stage returns a buffer of unchanged length
whenever `0 < low < high < sr/2`, and fails with the InvalidParameter
condition — returning no buffer — whenever `high_cutoff ≥ sr/2`, the
regime where Butterworth design is undefined. -/
theorem bandpass_contract (design : ℚ → ℚ → List ℚ × List ℚ) (buf : List ℚ)
    (sr low_cutoff high_cutoff : ℚ) (hsr : 0 < sr) :
    ((0 < low_cutoff ∧ low_cutoff < high_cutoff ∧ high_cutoff < 1/2 * sr) →
      ∃ out, applyBandpassFilter design buf sr low_cutoff high_cutoff = Except.ok out ∧
        out.length = buf.length) ∧
    (1/2 * sr ≤ high_cutoff →
      applyBandpassFilter design buf sr low_cutoff high_cutoff =
        Except.error VtError.invalidParameter) := by
  have hny : (0 : ℚ) < 1/2 * sr := by positivity
  constructor
  · rintro ⟨h1, h2, h3⟩
    unfold applyBandpassFilter
    rw [if_pos ⟨div_pos h1 hny, by gcongr, (div_lt_one hny).mpr h3⟩]
    exact ⟨_, rfl, filtfilt_length _ _ _⟩
  · intro h
    unfold applyBandpassFilter
    rw [if_neg ?_]
    intro hc
    exact absurd hc.2.2 (not_lt.mpr ((one_le_div hny).mpr h))

/-- Witness: C8's theorem with a valid band (300, 3000) and an invalid
band (20000, 21000) at sr = 22050 (Nyquist 11025). -/
theorem bandpass_contract_witness :
    (∃ out, applyBandpassFilter (fun _ _ => ([1], [1])) [1, 0] 22050 300 3000 =
        Except.ok out ∧ out.length = ([1, 0] : List ℚ).length) ∧
    applyBandpassFilter (fun _ _ => ([1], [1])) [1, 0] 22050 20000 21000 =
      Except.error VtError.invalidParameter :=
  ⟨(bandpass_contract (fun _ _ => ([1], [1])) [1, 0] 22050 300 3000 (by norm_num)).1
      ⟨by norm_num, by norm_num, by norm_num⟩,
    (bandpass_contract (fun _ _ => ([1], [1])) [1, 0] 22050 20000 21000 (by norm_num)).2
      (by norm_num)⟩

/-- Names the radio preset's resolution recognizes. -/
def radioParamNames : List String :=
  ["low_cutoff", "high_cutoff", "distortion_amount", "noise_factor",
   "sample_rate", "dust_level", "use_dust_effect"]

/-- Names the walkie preset's resolution recognizes. -/
def walkieParamNames : List String :=
  ["low_cutoff", "high_cutoff", "distortion_amount", "noise_factor",
   "static_level", "compression_ratio", "attack_ms", "release_ms", "bit_depth"]

theorem pLookup_cons_ne (ps : Params) (name k : String) (v : ℚ) (h : name ≠ k) :
    pLookup ((k, v) :: ps) name = pLookup ps name := by
  simp [pLookup, h]

theorem resolveRadioParams_ignores_unknown (ps : Params) (k : String) (v : ℚ)
    (h : k ∉ radioParamNames) :
    resolveRadioParams ((k, v) :: ps) = resolveRadioParams ps := by
  simp only [radioParamNames, List.mem_cons, List.not_mem_nil, or_false, not_or] at h
  obtain ⟨h1, h2, h3, h4, h5, h6, h7⟩ := h
  unfold resolveRadioParams
  simp only [pget]
  rw [pLookup_cons_ne _ _ _ _ (Ne.symm h1), pLookup_cons_ne _ _ _ _ (Ne.symm h2),
    pLookup_cons_ne _ _ _ _ (Ne.symm h3), pLookup_cons_ne _ _ _ _ (Ne.symm h4),
    pLookup_cons_ne _ _ _ _ (Ne.symm h5), pLookup_cons_ne _ _ _ _ (Ne.symm h6),
    pLookup_cons_ne _ _ _ _ (Ne.symm h7)]

theorem resolveWalkieParams_ignores_unknown (ps : Params) (k : String) (v : ℚ)
    (h : k ∉ walkieParamNames) :
    resolveWalkieParams ((k, v) :: ps) = resolveWalkieParams ps := by
  simp only [walkieParamNames, List.mem_cons, List.not_mem_nil, or_false, not_or] at h
  obtain ⟨h1, h2, h3, h4, h5, h6, h7, h8, h9⟩ := h
  unfold resolveWalkieParams
  simp only [pget, pgetNat]
  rw [pLookup_cons_ne _ _ _ _ (Ne.symm h1), pLookup_cons_ne _ _ _ _ (Ne.symm h2),
    pLookup_cons_ne _ _ _ _ (Ne.symm h3), pLookup_cons_ne _ _ _ _ (Ne.symm h4),
    pLookup_cons_ne _ _ _ _ (Ne.symm h5), pLookup_cons_ne _ _ _ _ (Ne.symm h6),
    pLookup_cons_ne _ _ _ _ (Ne.symm h7), pLookup_cons_ne _ _ _ _ (Ne.symm h8),
    pLookup_cons_ne _ _ _ _ (Ne.symm h9)]

/-- C9: every parameter name absent from the override map resolves to
the per-preset default of the table (radio: low_cutoff 300, high_cutoff
3000, distortion_amount 1.2, noise_factor 0.008, sample_rate 8000,
dust_level 0.2, use_dust_effect true (encoded 1); walkie: low_cutoff
300, high_cutoff 4000, distortion_amount 1.05, noise_factor 0.01,
static_level 0.03, compression_ratio 8, attack_ms 5, release_ms 150,
bit_depth 8), unrecognized names are ignored by both resolutions, and no
parameter is required. -/
theorem preset_parameter_resolution (ps : Params) :
    (pLookup ps "low_cutoff" = none → (resolveRadioParams ps).low_cutoff = 300) ∧
    (pLookup ps "high_cutoff" = none → (resolveRadioParams ps).high_cutoff = 3000) ∧
    (pLookup ps "distortion_amount" = none →
      (resolveRadioParams ps).distortion_amount = 12/10) ∧
    (pLookup ps "noise_factor" = none → (resolveRadioParams ps).noise_factor = 8/1000) ∧
    (pLookup ps "sample_rate" = none → (resolveRadioParams ps).target_sample_rate = 8000) ∧
    (pLookup ps "dust_level" = none → (resolveRadioParams ps).dust_level = 2/10) ∧
    (pLookup ps "use_dust_effect" = none → (resolveRadioParams ps).use_dust_effect = 1) ∧
    (pLookup ps "low_cutoff" = none → (resolveWalkieParams ps).low_cutoff = 300) ∧
    (pLookup ps "high_cutoff" = none → (resolveWalkieParams ps).high_cutoff = 4000) ∧
    (pLookup ps "distortion_amount" = none →
      (resolveWalkieParams ps).distortion_amount = 21/20) ∧
    (pLookup ps "noise_factor" = none → (resolveWalkieParams ps).noise_factor = 1/100) ∧
    (pLookup ps "static_level" = none → (resolveWalkieParams ps).static_level = 3/100) ∧
    (pLookup ps "compression_ratio" = none →
      (resolveWalkieParams ps).compression_ratio = 8) ∧
    (pLookup ps "attack_ms" = none → (resolveWalkieParams ps).attack_ms = 5) ∧
    (pLookup ps "release_ms" = none → (resolveWalkieParams ps).release_ms = 150) ∧
    (pLookup ps "bit_depth" = none → (resolveWalkieParams ps).bit_depth = 8) ∧
    (∀ k v, k ∉ radioParamNames →
      resolveRadioParams ((k, v) :: ps) = resolveRadioParams ps) ∧
    (∀ k v, k ∉ walkieParamNames →
      resolveWalkieParams ((k, v) :: ps) = resolveWalkieParams ps) := by
  refine ⟨fun h => by simp [resolveRadioParams, pget, h],
    fun h => by simp [resolveRadioParams, pget, h],
    fun h => by simp [resolveRadioParams, pget, h],
    fun h => by simp [resolveRadioParams, pget, h],
    fun h => by simp [resolveRadioParams, pget, h],
    fun h => by simp [resolveRadioParams, pget, h],
    fun h => by simp [resolveRadioParams, pget, h],
    fun h => by simp [resolveWalkieParams, pget, h],
    fun h => by simp [resolveWalkieParams, pget, h],
    fun h => by simp [resolveWalkieParams, pget, h],
    fun h => by simp [resolveWalkieParams, pget, h],
    fun h => by simp [resolveWalkieParams, pget, h],
    fun h => by simp [resolveWalkieParams, pget, h],
    fun h => by simp [resolveWalkieParams, pget, h],
    fun h => by simp [resolveWalkieParams, pget, h],
    fun h => by simp [resolveWalkieParams, pgetNat, h],
    fun k v h => resolveRadioParams_ignores_unknown ps k v h,
    fun k v h => resolveWalkieParams_ignores_unknown ps k v h⟩

/-- Witness: C9's theorem on the override map [("noise_factor", 1/50)]:
absent names fall back to defaults, and the unrecognized name "foo" is
ignored. -/
theorem preset_parameter_resolution_witness :
    (resolveRadioParams [("noise_factor", 1/50)]).low_cutoff = 300 ∧
    (resolveWalkieParams [("noise_factor", 1/50)]).bit_depth = 8 ∧
    resolveRadioParams [("foo", 7), ("noise_factor", 1/50)] =
      resolveRadioParams [("noise_factor", 1/50)] :=
  ⟨(preset_parameter_resolution [("noise_factor", 1/50)]).1 (by simp [pLookup]),
    (preset_parameter_resolution
      [("noise_factor", 1/50)]).2.2.2.2.2.2.2.2.2.2.2.2.2.2.2.1 (by simp [pLookup]),
    (preset_parameter_resolution
      [("noise_factor", 1/50)]).2.2.2.2.2.2.2.2.2.2.2.2.2.2.2.2.1 "foo" 7
      (by simp [radioParamNames])⟩
